import Mathlib

/-!
Shallow embedding of the mrc_filemover repository (three Python source files:
mrc_mover_simple.py, file_mover.py, mrc_mover_gui.py).

File contents are byte lists.  The filesystem visible to the program is the
flat source directory and the flat destination directory, each an association
list from entry name to entry (regular file with content, or a subdirectory
holding plain files — enough structure to model copying or moving into a
directory that collides with the destination path).

Environment nondeterminism (the two size observations of the readiness probe,
copy failures, read failures during hashing, deletion failures, content
corruption during the copy) is passed in explicitly as an `Xfer` record: one
record describes the environment behavior of one executor invocation on one
file.  Each executor also returns the list of observable filesystem events it
performed, so temporal properties (delete only after verify) are statements
about traces.
-/

namespace MrcMover

abbrev Content := List Nat

/-- A directory entry: a regular file with its byte content, or a
subdirectory (holding plain files, which is enough structure to model
`shutil.copy2` / `shutil.move` copying into a colliding directory). -/
inductive Entry : Type where
  | file (c : Content)
  | dir (sub : List (String × Content))
deriving DecidableEq

abbrev DirList := List (String × Entry)

/-- The two directories the program touches: `self.source_dir` and
`self.dest_dir` / `self.destination_dir`. -/
structure Fs : Type where
  source : DirList
  dest : DirList
deriving DecidableEq

/-- Look an entry up by name (the filesystem resolving a path inside a
directory). -/
def lookupE : DirList → String → Option Entry
  | [], _ => none
  | p :: t, n => if p.1 == n then some p.2 else lookupE t n

/-- Write an entry, overwriting an existing one of the same name. -/
def setE : DirList → String → Entry → DirList
  | [], n, e => [(n, e)]
  | p :: t, n, e => if p.1 == n then (n, e) :: t else p :: setE t n e

/-- Remove an entry by name (`os.remove`). -/
def eraseE : DirList → String → DirList
  | [], _ => []
  | p :: t, n => if p.1 == n then eraseE t n else p :: eraseE t n

/-- Write a plain file inside a subdirectory, overwriting an existing one. -/
def setSub : List (String × Content) → String → Content → List (String × Content)
  | [], n, c => [(n, c)]
  | p :: t, n, c => if p.1 == n then (n, c) :: t else p :: setSub t n c

/-- The settle interval of the readiness probe: the executor runs
`time.sleep(1)` between the two size reads (mrc_mover_simple.py line 93,
file_mover.py line 35, mrc_mover_gui.py line 155). -/
def settleSeconds : Nat := 1

/-- `is_file_ready` (identical in all three variants): read the size, sleep
`settleSeconds`, read the size again, report ready iff the sizes are equal;
any exception from either `getsize`/`stat` call is caught and yields `False`.
The two size observations are environment inputs (`none` models the read
raising). -/
def is_file_ready (r1 r2 : Option Nat) : Bool :=
  match r1, r2 with
  | some a, some b => a == b
  | _, _ => false

/-- Split a byte list into successive chunks of `k` bytes, as the read loop
`iter(lambda: f.read(4096), b"")` does; fuel-based so it computes by
reduction (the fuel is the content length, and each step consumes at least
one byte when `k > 0`). -/
def chunksOfAux (k : Nat) : Nat → List Nat → List Content
  | _, [] => []
  | 0, _ :: _ => []
  | fuel + 1, x :: xs => ((x :: xs).take k) :: chunksOfAux k fuel ((x :: xs).drop k)

def chunksOf (k : Nat) (c : Content) : List Content :=
  chunksOfAux k c.length c

/-- `calculate_file_hash` (mrc_mover_simple.py lines 81-87): stream the
content in 4096-byte chunks through the digest.  The MD5 primitive is the
environment's: it is modelled as an arbitrary digest-update function `upd`
folded from a seed over the chunk stream, exactly mirroring
`hash_md5.update(chunk)` per chunk followed by `hexdigest()`. -/
def calculate_file_hash (upd : Nat → Content → Nat) (seed : Nat) (c : Content) : Nat :=
  (chunksOf 4096 c).foldl upd seed

/-- `verify_copy` (mrc_mover_simple.py lines 101-110): hash both paths and
compare; any read failure (modelled as `none`) raises inside the `try` and
is caught, returning `False`. -/
def verify_copy (upd : Nat → Content → Nat) (seed : Nat)
    (src dst : Option Content) : Bool :=
  match src, dst with
  | some s, some d => calculate_file_hash upd seed s == calculate_file_hash upd seed d
  | _, _ => false

/-- Environment behavior for one executor invocation on one file: the two
size observations of the readiness probe, and which I/O operations fail.
`corrupt = some w` means the copy writes `w` instead of the source bytes
(accidental corruption in flight). -/
structure Xfer : Type where
  size1 : Option Nat
  size2 : Option Nat
  copyFails : Bool
  corrupt : Option Content
  readSrcFails : Bool
  readDstFails : Bool
  removeSrcFails : Bool
  removeDstFails : Bool
  moveFails : Bool
deriving DecidableEq

/-- Observable filesystem events of one executor invocation. -/
inductive Ev : Type where
  | probe (ready : Bool)
  | copyEv (ok : Bool)
  | verifyEv (ok : Bool)
  | removeSrc (ok : Bool)
  | removeDst (ok : Bool)
  | moveEv (ok : Bool)
deriving DecidableEq

/-- Events that delete the source file: a successful `os.remove(source_path)`
or a successful `shutil.move` (which relocates and hence removes the
source). -/
def sourceDeleting : Ev → Bool
  | Ev.removeSrc true => true
  | Ev.moveEv true => true
  | _ => false

def delAfterVerifyAux : Bool → List Ev → Bool
  | _, [] => true
  | _, Ev.verifyEv true :: rest => delAfterVerifyAux true rest
  | v, ev :: rest => (!(sourceDeleting ev) || v) && delAfterVerifyAux v rest

/-- A trace deletes the source only after successful verification: every
source-deleting event is preceded by a `verifyEv true` event. -/
def delAfterVerify (tr : List Ev) : Bool :=
  delAfterVerifyAux false tr

/-- Read a file's bytes for hashing: fails (`none`) on an environment fault,
on a missing entry, or when the path names a directory (opening a directory
for reading raises). -/
def readFile (l : DirList) (n : String) (fault : Bool) : Option Content :=
  if fault then none
  else
    match lookupE l n with
    | some (Entry.file c) => some c
    | _ => none

/-- `shutil.copy2(source_path, dest_path)` where `dest_path` is the
destination directory joined with the basename: overwrites an existing
destination file silently; if the destination path is occupied by a
directory, copies to `dest_path/basename` inside it. -/
def written (e : Xfer) (c : Content) : Content :=
  match e.corrupt with
  | some w => w
  | none => c

def copy2 (e : Xfer) (fs : Fs) (n : String) (c : Content) : Fs :=
  match lookupE fs.dest n with
  | some (Entry.dir sub) => { fs with dest := setE fs.dest n (Entry.dir (setSub sub n (written e c))) }
  | _ => { fs with dest := setE fs.dest n (Entry.file (written e c)) }

/-- `safe_copy_and_delete` (mrc_mover_simple.py lines 112-142), returning
(the boolean result, the filesystem afterward, the event trace).  Structure
mirrors the Python: one outer `try` catches every exception (failed copy,
failed source delete, failed destination delete on a directory) and returns
`False`; verification failure removes the destination copy if it exists and
returns `False`; only successful verification reaches
`os.remove(source_path)`. -/
def safe_copy_and_delete (upd : Nat → Content → Nat) (seed : Nat) (e : Xfer)
    (fs : Fs) (n : String) : Bool × Fs × List Ev :=
  if is_file_ready e.size1 e.size2 = false then
    (false, fs, [Ev.probe false])
  else
    match lookupE fs.source n with
    | some (Entry.file c) =>
      if e.copyFails then
        (false, fs, [Ev.probe true, Ev.copyEv false])
      else
        let fs2 := copy2 e fs n c
        if verify_copy upd seed (readFile fs2.source n e.readSrcFails)
            (readFile fs2.dest n e.readDstFails) then
          if e.removeSrcFails then
            (false, fs2, [Ev.probe true, Ev.copyEv true, Ev.verifyEv true, Ev.removeSrc false])
          else
            (true, { fs2 with source := eraseE fs2.source n },
              [Ev.probe true, Ev.copyEv true, Ev.verifyEv true, Ev.removeSrc true])
        else
          match lookupE fs2.dest n with
          | none => (false, fs2, [Ev.probe true, Ev.copyEv true, Ev.verifyEv false])
          | some (Entry.dir _) =>
            (false, fs2, [Ev.probe true, Ev.copyEv true, Ev.verifyEv false, Ev.removeDst false])
          | some (Entry.file _) =>
            if e.removeDstFails then
              (false, fs2, [Ev.probe true, Ev.copyEv true, Ev.verifyEv false, Ev.removeDst false])
            else
              (false, { fs2 with dest := eraseE fs2.dest n },
                [Ev.probe true, Ev.copyEv true, Ev.verifyEv false, Ev.removeDst true])
    | _ => (false, fs, [Ev.probe true, Ev.copyEv false])

/-- `move_file` (file_mover.py lines 43-60; identical logic in
mrc_mover_gui.py lines 161-174): readiness probe, then `shutil.move`, with
no verification step.  `shutil.move` relocates the source into the
destination directory, silently overwriting an existing destination file
(POSIX rename semantics), or moving inside a colliding destination
directory; exceptions are caught and yield `False`. -/
def move_file (e : Xfer) (fs : Fs) (n : String) : Bool × Fs × List Ev :=
  if is_file_ready e.size1 e.size2 = false then
    (false, fs, [Ev.probe false])
  else if e.moveFails then
    (false, fs, [Ev.probe true, Ev.moveEv false])
  else
    match lookupE fs.source n with
    | some (Entry.file c) =>
      match lookupE fs.dest n with
      | some (Entry.dir sub) =>
        (true, { source := eraseE fs.source n, dest := setE fs.dest n (Entry.dir (setSub sub n c)) },
          [Ev.probe true, Ev.moveEv true])
      | _ =>
        (true, { source := eraseE fs.source n, dest := setE fs.dest n (Entry.file c) },
          [Ev.probe true, Ev.moveEv true])
    | _ => (false, fs, [Ev.probe true, Ev.moveEv false])

/-- Python's `name.endswith(ext)`, as a suffix test on the character list. -/
def endsWithExt (n ext : String) : Bool :=
  ext.data.isSuffixOf n.data

/-- Is a directory entry a regular file (`os.path.isfile`)? -/
def isFileE : Entry → Bool
  | Entry.file _ => true
  | Entry.dir _ => false

/-- The scanner of mrc_mover_simple.py lines 148-149:
`[f for f in os.listdir(source_dir) if f.endswith(ext) and os.path.isfile(join(source_dir, f))]`.
`os.listdir` is non-recursive, so only top-level entries of the source
directory are considered. -/
def listCandidates (src : DirList) (ext : String) : List String :=
  (src.filter (fun p => endsWithExt p.1 ext && isFileE p.2)).map (fun p => p.1)

/-- The scanner of file_mover.py line 66 / mrc_mover_gui.py line 178:
`source_dir.glob("*.mrc")`.  pathlib compiles the pattern through fnmatch,
whose wildcard matches any characters (the empty string included, and with
no special-casing of leading dots), so the pattern selects every top-level
entry — regular file or directory, hidden or not — whose name ends with the
extension. -/
def globCandidates (src : DirList) (ext : String) : List String :=
  (src.filter (fun p => endsWithExt p.1 ext)).map (fun p => p.1)

/-- The dedup ledger `self.processed_files`, a Python set of basenames. -/
abbrev Ledger := List String

/-- `self.processed_files.add(name)`. -/
def record (l : Ledger) (n : String) : Ledger :=
  if n ∈ l then l else n :: l

/-- The mutable state of one `MRCFileMover` instance: the filesystem it acts
on and the dedup ledger. -/
structure St : Type where
  fs : Fs
  ledger : Ledger
deriving DecidableEq

/-- Outcome of one scan pass: the returned `files_processed` count, the
state afterward, the names for which the executor was invoked (in order),
and the names whose transfer reported success. -/
structure PassOut : Type where
  count : Nat
  st : St
  attempted : List String
  succeededN : List String
deriving DecidableEq

/-- The per-file loop of `scan_and_process` (mrc_mover_simple.py lines
154-160): skip names already in the ledger; otherwise invoke
`safe_copy_and_delete` and, on success, add the name to the ledger and
increment the count.  `env` gives the environment behavior for each file. -/
def processFiles (upd : Nat → Content → Nat) (seed : Nat) (env : String → Xfer) :
    List String → St → PassOut
  | [], st => ⟨0, st, [], []⟩
  | f :: rest, st =>
    if f ∈ st.ledger then
      processFiles upd seed env rest st
    else
      let r := safe_copy_and_delete upd seed (env f) st.fs f
      if r.1 then
        let o := processFiles upd seed env rest ⟨r.2.1, record st.ledger f⟩
        ⟨o.count + 1, o.st, f :: o.attempted, f :: o.succeededN⟩
      else
        let o := processFiles upd seed env rest ⟨r.2.1, st.ledger⟩
        ⟨o.count, o.st, f :: o.attempted, o.succeededN⟩

/-- One scan pass over the listing of the source directory. -/
def scanPass (upd : Nat → Content → Nat) (seed : Nat) (env : String → Xfer)
    (st : St) : PassOut :=
  processFiles upd seed env (listCandidates st.fs.source ".mrc") st

/-- `scan_and_process` (mrc_mover_simple.py lines 144-166): list the `.mrc`
regular files, process each, and return `files_processed`.  The whole body
is wrapped in `try`; a directory-listing failure (`listFails`) is caught and
returns `0` with the state untouched. -/
def scan_and_process (upd : Nat → Content → Nat) (seed : Nat)
    (env : String → Xfer) (listFails : Bool) (st : St) : Nat × St :=
  if listFails then (0, st)
  else
    let p := scanPass upd seed env st
    (p.count, p.st)

/-- Environment of one whole pass: an disturbal filesystem perturbation
applied before the pass (other processes adding or removing files between
polls), the per-file executor environment, and whether the directory
listing fails. -/
structure PassEnv : Type where
  disturb : Fs → Fs
  env : String → Xfer
  listFails : Bool

/-- One pass as seen by the run: the disturbal perturbation, then
`scan_and_process` (with its trace). -/
def passOutcome (upd : Nat → Content → Nat) (seed : Nat) (pe : PassEnv)
    (st : St) : PassOut :=
  if pe.listFails then ⟨0, st, [], []⟩
  else scanPass upd seed pe.env st

/-- A run: the host loop invoking one pass per poll interval
(mrc_mover_simple.py `run` calls it once; the file_mover/gui hosts loop). -/
def runPasses (upd : Nat → Content → Nat) (seed : Nat) :
    List PassEnv → St → St × List PassOut
  | [], st => (st, [])
  | pe :: rest, st =>
    let o := passOutcome upd seed pe ⟨pe.disturb st.fs, st.ledger⟩
    let r := runPasses upd seed rest o.st
    (r.1, o :: r.2)

/-- A fault-free executor environment whose two size observations agree. -/
def goodEnv (m : Nat) : Xfer :=
  ⟨some m, some m, false, none, false, false, false, false, false⟩

/-- The fault-free environment except that the post-verification
`os.remove(source_path)` raises. -/
def badDelEnv (m : Nat) : Xfer :=
  { goodEnv m with removeSrcFails := true }

/-- A concrete content-sensitive digest-update function, used to instantiate
the abstract MD5 primitive at concrete inputs. -/
def digestSum : Nat → Content → Nat :=
  fun d ch => d * 100 + ch.foldl (fun a b => a + b + 1) 0

/- ------------------------------------------------------------------ -/
/- Helper lemmas about the filesystem primitives.                      -/
/- ------------------------------------------------------------------ -/

theorem lookupE_setE_self (l : DirList) (n : String) (e : Entry) :
    lookupE (setE l n e) n = some e := by
  induction l with
  | nil => simp [setE, lookupE]
  | cons p t ih =>
    by_cases h : p.1 == n
    · simp [setE, lookupE, h]
    · simp [setE, lookupE, h, ih]

theorem lookupE_eraseE_self (l : DirList) (n : String) :
    lookupE (eraseE l n) n = none := by
  induction l with
  | nil => simp [eraseE, lookupE]
  | cons p t ih =>
    by_cases h : p.1 == n
    · simp [eraseE, h, ih]
    · simp [eraseE, lookupE, h, ih]

theorem copy2_source (e : Xfer) (fs : Fs) (n : String) (c : Content) :
    (copy2 e fs n c).source = fs.source := by
  unfold copy2
  split <;> rfl

theorem written_none (e : Xfer) (c : Content) (hc : e.corrupt = none) :
    written e c = c := by
  unfold written
  rw [hc]

theorem copy2_dest_of_not_dir (e : Xfer) (fs : Fs) (n : String) (c : Content)
    (h : ∀ sub, lookupE fs.dest n ≠ some (Entry.dir sub)) (hc : e.corrupt = none) :
    (copy2 e fs n c).dest = setE fs.dest n (Entry.file c) := by
  unfold copy2
  rw [written_none e c hc]
  split
  · rename_i sub heq
    exact absurd heq (h sub)
  · rfl

/- ------------------------------------------------------------------ -/
/- Helper lemmas about chunking.                                       -/
/- ------------------------------------------------------------------ -/

theorem chunksOfAux_join (k : Nat) (hk : 0 < k) :
    ∀ (fuel : Nat) (c : List Nat), c.length ≤ fuel → (chunksOfAux k fuel c).flatten = c := by
  intro fuel
  induction fuel with
  | zero =>
    intro c hc
    cases c with
    | nil => simp [chunksOfAux]
    | cons x xs => simp at hc
  | succ m ih =>
    intro c hc
    cases c with
    | nil => simp [chunksOfAux]
    | cons x xs =>
      have hdrop : ((x :: xs).drop k).length ≤ m := by
        rw [List.length_drop]
        omega
      simp only [chunksOfAux, List.flatten]
      rw [ih _ hdrop, List.take_append_drop]

theorem chunksOf_join (c : Content) : (chunksOf 4096 c).flatten = c :=
  chunksOfAux_join 4096 (by omega) c.length c (Nat.le_refl _)

theorem chunksOfAux_mem (k : Nat) (hk : 0 < k) :
    ∀ (fuel : Nat) (c ch : List Nat), ch ∈ chunksOfAux k fuel c →
      ch.length ≤ k ∧ ch ≠ [] := by
  intro fuel
  induction fuel with
  | zero =>
    intro c ch h
    cases c with
    | nil => simp [chunksOfAux] at h
    | cons x xs => simp [chunksOfAux] at h
  | succ m ih =>
    intro c ch h
    cases c with
    | nil => simp [chunksOfAux] at h
    | cons x xs =>
      simp only [chunksOfAux, List.mem_cons] at h
      rcases h with h | h
      · subst h
        refine ⟨by simp, ?_⟩
        cases k with
        | zero => omega
        | succ j => simp [List.take]
      · exact ih _ _ h

/- ------------------------------------------------------------------ -/
/- Step lemmas for the executors.                                      -/
/- ------------------------------------------------------------------ -/

theorem goodEnv_ready (m : Nat) :
    is_file_ready (goodEnv m).size1 (goodEnv m).size2 = true := by
  simp [goodEnv, is_file_ready]

theorem goodEnv_copyFails (m : Nat) : (goodEnv m).copyFails = false := rfl

theorem goodEnv_corrupt (m : Nat) : (goodEnv m).corrupt = none := rfl

theorem goodEnv_readSrcFails (m : Nat) : (goodEnv m).readSrcFails = false := rfl

theorem goodEnv_readDstFails (m : Nat) : (goodEnv m).readDstFails = false := rfl

theorem goodEnv_removeSrcFails (m : Nat) : (goodEnv m).removeSrcFails = false := rfl

theorem badDelEnv_ready (m : Nat) :
    is_file_ready (badDelEnv m).size1 (badDelEnv m).size2 = true := by
  simp [badDelEnv, goodEnv, is_file_ready]

theorem badDelEnv_copyFails (m : Nat) : (badDelEnv m).copyFails = false := rfl

theorem badDelEnv_readSrcFails (m : Nat) : (badDelEnv m).readSrcFails = false := rfl

theorem badDelEnv_readDstFails (m : Nat) : (badDelEnv m).readDstFails = false := rfl

theorem badDelEnv_removeSrcFails (m : Nat) : (badDelEnv m).removeSrcFails = true := rfl

theorem scd_success (u : Nat → Content → Nat) (s m : Nat) (fs : Fs) (n : String)
    (c : Content) (hsrc : lookupE fs.source n = some (Entry.file c))
    (hdir : ∀ sub, lookupE fs.dest n ≠ some (Entry.dir sub)) :
    safe_copy_and_delete u s (goodEnv m) fs n =
      (true, ⟨eraseE fs.source n, setE fs.dest n (Entry.file c)⟩,
        [Ev.probe true, Ev.copyEv true, Ev.verifyEv true, Ev.removeSrc true]) := by
  have hdest := copy2_dest_of_not_dir (goodEnv m) fs n c hdir (goodEnv_corrupt m)
  simp only [safe_copy_and_delete, goodEnv_ready, goodEnv_copyFails,
    goodEnv_readSrcFails, goodEnv_readDstFails, goodEnv_removeSrcFails,
    copy2_source, hdest, hsrc, readFile, lookupE_setE_self,
    Bool.true_eq_false, Bool.false_eq_true, if_false, verify_copy,
    beq_self_eq_true, if_true]

theorem scd_baddel (u : Nat → Content → Nat) (s m : Nat) (fs : Fs) (n : String)
    (c : Content) (hsrc : lookupE fs.source n = some (Entry.file c))
    (hdir : ∀ sub, lookupE fs.dest n ≠ some (Entry.dir sub)) :
    safe_copy_and_delete u s (badDelEnv m) fs n =
      (false, ⟨fs.source, setE fs.dest n (Entry.file c)⟩,
        [Ev.probe true, Ev.copyEv true, Ev.verifyEv true, Ev.removeSrc false]) := by
  have hdest := copy2_dest_of_not_dir (badDelEnv m) fs n c hdir rfl
  simp only [safe_copy_and_delete, badDelEnv_ready, badDelEnv_copyFails,
    badDelEnv_readSrcFails, badDelEnv_readDstFails, badDelEnv_removeSrcFails,
    copy2_source, hdest, hsrc, readFile, lookupE_setE_self,
    Bool.true_eq_false, Bool.false_eq_true, if_false, verify_copy,
    beq_self_eq_true, if_true]
  have hcp : copy2 (badDelEnv m) fs n c = ⟨fs.source, setE fs.dest n (Entry.file c)⟩ := by
    calc copy2 (badDelEnv m) fs n c
        = ⟨(copy2 (badDelEnv m) fs n c).source, (copy2 (badDelEnv m) fs n c).dest⟩ := rfl
      _ = ⟨fs.source, setE fs.dest n (Entry.file c)⟩ := by rw [copy2_source, hdest]
  rw [hcp]

/- ------------------------------------------------------------------ -/
/- Lemmas about the ledger and the per-pass loop.                      -/
/- ------------------------------------------------------------------ -/

theorem mem_record (l : Ledger) (n x : String) :
    x ∈ record l n ↔ x = n ∨ x ∈ l := by
  unfold record
  split
  · rename_i h
    constructor
    · intro hx
      exact Or.inr hx
    · rintro (rfl | hx)
      · exact h
      · exact hx
  · simp [List.mem_cons]

theorem record_idem (l : Ledger) (n : String) :
    record (record l n) n = record l n := by
  unfold record
  split
  · rename_i h
    simp [h]
  · simp

theorem processFiles_count (u : Nat → Content → Nat) (s : Nat) (env : String → Xfer)
    (fl : List String) (st : St) :
    (processFiles u s env fl st).count = (processFiles u s env fl st).succeededN.length := by
  induction fl generalizing st with
  | nil => simp [processFiles]
  | cons f rest ih =>
    by_cases hf : f ∈ st.ledger
    · simp only [processFiles, if_pos hf]
      exact ih st
    · simp only [processFiles, if_neg hf]
      by_cases hr : (safe_copy_and_delete u s (env f) st.fs f).1 = true
      · simp only [if_pos hr, List.length_cons]
        rw [ih]
      · simp only [if_neg hr]
        exact ih _

theorem processFiles_ledger_mono (u : Nat → Content → Nat) (s : Nat)
    (env : String → Xfer) (fl : List String) (st : St) (x : String)
    (hx : x ∈ st.ledger) : x ∈ (processFiles u s env fl st).st.ledger := by
  induction fl generalizing st with
  | nil => exact hx
  | cons f rest ih =>
    by_cases hf : f ∈ st.ledger
    · simp only [processFiles, if_pos hf]
      exact ih st hx
    · simp only [processFiles, if_neg hf]
      by_cases hr : (safe_copy_and_delete u s (env f) st.fs f).1 = true
      · simp only [if_pos hr]
        exact ih _ ((mem_record st.ledger f x).2 (Or.inr hx))
      · simp only [if_neg hr]
        exact ih _ hx

theorem processFiles_ledger_iff (u : Nat → Content → Nat) (s : Nat)
    (env : String → Xfer) (fl : List String) (st : St) (x : String) :
    x ∈ (processFiles u s env fl st).st.ledger ↔
      x ∈ st.ledger ∨ x ∈ (processFiles u s env fl st).succeededN := by
  induction fl generalizing st with
  | nil => simp [processFiles]
  | cons f rest ih =>
    by_cases hf : f ∈ st.ledger
    · simp only [processFiles, if_pos hf]
      exact ih st
    · simp only [processFiles, if_neg hf]
      by_cases hr : (safe_copy_and_delete u s (env f) st.fs f).1 = true
      · simp only [if_pos hr, List.mem_cons]
        rw [ih]
        rw [mem_record]
        tauto
      · simp only [if_neg hr]
        exact ih _

theorem verify_copy_none (u : Nat → Content → Nat) (s : Nat) (a : Option Content) :
    verify_copy u s a none = false := by
  unfold verify_copy
  cases a <;> rfl

theorem goodEnv_moveFails (m : Nat) : (goodEnv m).moveFails = false := rfl

theorem scd_false_source (u : Nat → Content → Nat) (s : Nat) (e : Xfer) (fs : Fs)
    (n : String) (h : (safe_copy_and_delete u s e fs n).1 = false) :
    (safe_copy_and_delete u s e fs n).2.1.source = fs.source := by
  revert h
  simp only [safe_copy_and_delete]
  repeat' split
  all_goals intro h
  all_goals simp_all [copy2_source]

theorem scd_trace_verified (u : Nat → Content → Nat) (s : Nat) (e : Xfer) (fs : Fs)
    (n : String) : delAfterVerify (safe_copy_and_delete u s e fs n).2.2 = true := by
  simp only [safe_copy_and_delete]
  repeat' split
  all_goals simp [delAfterVerify, delAfterVerifyAux, sourceDeleting]

theorem scd_success_iff (u : Nat → Content → Nat) (s : Nat) (e : Xfer) (fs : Fs)
    (n : String) :
    (safe_copy_and_delete u s e fs n).1 = true ↔
      Ev.removeSrc true ∈ (safe_copy_and_delete u s e fs n).2.2 := by
  simp only [safe_copy_and_delete]
  repeat' split
  all_goals simp

theorem scd_verify_fail_cleanup (u : Nat → Content → Nat) (s : Nat) (e : Xfer)
    (fs : Fs) (n : String) (c : Content)
    (hsrc : lookupE fs.source n = some (Entry.file c))
    (hready : is_file_ready e.size1 e.size2 = true)
    (hcopy : e.copyFails = false)
    (hdir : ∀ sub, lookupE fs.dest n ≠ some (Entry.dir sub))
    (hcorr : e.corrupt = none)
    (hrmd : e.removeDstFails = false)
    (hv : verify_copy u s (readFile fs.source n e.readSrcFails)
        (readFile (copy2 e fs n c).dest n e.readDstFails) = false) :
    (safe_copy_and_delete u s e fs n).1 = false ∧
    lookupE (safe_copy_and_delete u s e fs n).2.1.dest n = none ∧
    (safe_copy_and_delete u s e fs n).2.1.source = fs.source := by
  have hdest := copy2_dest_of_not_dir e fs n c hdir hcorr
  have hv2 : verify_copy u s (readFile (copy2 e fs n c).source n e.readSrcFails)
      (readFile (copy2 e fs n c).dest n e.readDstFails) = false := by
    rw [copy2_source]
    exact hv
  simp only [safe_copy_and_delete, hready, hsrc, hcopy, hv2, Bool.true_eq_false,
    Bool.false_eq_true, if_false]
  rw [hdest, lookupE_setE_self]
  simp [hrmd, lookupE_eraseE_self, copy2_source]

theorem scd_destdir (u : Nat → Content → Nat) (s m : Nat) (fs : Fs) (n : String)
    (sub : List (String × Content))
    (hdest : lookupE fs.dest n = some (Entry.dir sub)) :
    (safe_copy_and_delete u s (goodEnv m) fs n).1 = false ∧
    (safe_copy_and_delete u s (goodEnv m) fs n).2.1.source = fs.source := by
  have h1 : (safe_copy_and_delete u s (goodEnv m) fs n).1 = false := by
    cases hsrc : lookupE fs.source n with
    | none => simp [safe_copy_and_delete, goodEnv_ready, hsrc]
    | some ent =>
      cases ent with
      | dir sub2 => simp [safe_copy_and_delete, goodEnv_ready, hsrc]
      | file c =>
        have hcp : (copy2 (goodEnv m) fs n c).dest =
            setE fs.dest n (Entry.dir (setSub sub n c)) := by
          unfold copy2
          rw [hdest, written_none _ _ (goodEnv_corrupt m)]
        have hrd : readFile (setE fs.dest n (Entry.dir (setSub sub n c))) n
            (goodEnv m).readDstFails = none := by
          simp [readFile, goodEnv_readDstFails, lookupE_setE_self]
        simp only [safe_copy_and_delete, goodEnv_ready, goodEnv_copyFails, hsrc,
          Bool.true_eq_false, Bool.false_eq_true, if_false, hcp, lookupE_setE_self]
        rw [hrd, verify_copy_none]
        simp
  exact ⟨h1, scd_false_source u s (goodEnv m) fs n h1⟩

theorem move_overwrite (m : Nat) (fs : Fs) (n : String) (c old : Content)
    (hsrc : lookupE fs.source n = some (Entry.file c))
    (hdest : lookupE fs.dest n = some (Entry.file old)) :
    move_file (goodEnv m) fs n =
      (true, ⟨eraseE fs.source n, setE fs.dest n (Entry.file c)⟩,
        [Ev.probe true, Ev.moveEv true]) := by
  simp [move_file, goodEnv_ready, goodEnv_moveFails, hsrc, hdest]

theorem processFiles_not_attempted (u : Nat → Content → Nat) (s : Nat)
    (env : String → Xfer) (fl : List String) (st : St) (x : String)
    (hx : x ∈ st.ledger) : x ∉ (processFiles u s env fl st).attempted := by
  induction fl generalizing st with
  | nil => simp [processFiles]
  | cons f rest ih =>
    by_cases hf : f ∈ st.ledger
    · simp only [processFiles, if_pos hf]
      exact ih st hx
    · have hxf : x ≠ f := by
        intro h
        exact hf (h ▸ hx)
      simp only [processFiles, if_neg hf]
      by_cases hr : (safe_copy_and_delete u s (env f) st.fs f).1 = true
      · simp only [if_pos hr, List.mem_cons, not_or]
        exact ⟨hxf, ih _ ((mem_record st.ledger f x).2 (Or.inr hx))⟩
      · simp only [if_neg hr, List.mem_cons, not_or]
        exact ⟨hxf, ih _ hx⟩

theorem passOutcome_ledger_mono (u : Nat → Content → Nat) (s : Nat) (pe : PassEnv)
    (st : St) (x : String) (hx : x ∈ st.ledger) :
    x ∈ (passOutcome u s pe st).st.ledger := by
  unfold passOutcome
  split
  · exact hx
  · exact processFiles_ledger_mono u s pe.env _ st x hx

theorem passOutcome_ledger_iff (u : Nat → Content → Nat) (s : Nat) (pe : PassEnv)
    (st : St) (x : String) :
    x ∈ (passOutcome u s pe st).st.ledger ↔
      x ∈ st.ledger ∨ x ∈ (passOutcome u s pe st).succeededN := by
  unfold passOutcome
  split
  · simp
  · exact processFiles_ledger_iff u s pe.env _ st x

theorem passOutcome_not_attempted (u : Nat → Content → Nat) (s : Nat) (pe : PassEnv)
    (st : St) (x : String) (hx : x ∈ st.ledger) :
    x ∉ (passOutcome u s pe st).attempted := by
  unfold passOutcome
  split
  · simp
  · exact processFiles_not_attempted u s pe.env _ st x hx

theorem runPasses_ledger_mono (u : Nat → Content → Nat) (s : Nat)
    (pes : List PassEnv) (st : St) (x : String) (hx : x ∈ st.ledger) :
    x ∈ (runPasses u s pes st).1.ledger := by
  induction pes generalizing st with
  | nil => exact hx
  | cons pe rest ih =>
    simp only [runPasses]
    exact ih _ (passOutcome_ledger_mono u s pe ⟨pe.disturb st.fs, st.ledger⟩ x hx)

theorem runPasses_ledger_iff (u : Nat → Content → Nat) (s : Nat)
    (pes : List PassEnv) (st : St) (x : String) :
    x ∈ (runPasses u s pes st).1.ledger ↔
      x ∈ st.ledger ∨ ∃ o ∈ (runPasses u s pes st).2, x ∈ o.succeededN := by
  induction pes generalizing st with
  | nil => simp [runPasses]
  | cons pe rest ih =>
    simp only [runPasses, List.mem_cons]
    rw [ih]
    rw [passOutcome_ledger_iff]
    constructor
    · rintro ((hx | hx) | ⟨o, ho, hxo⟩)
      · exact Or.inl hx
      · exact Or.inr ⟨_, Or.inl rfl, hx⟩
      · exact Or.inr ⟨o, Or.inr ho, hxo⟩
    · rintro (hx | ⟨o, (rfl | ho), hxo⟩)
      · exact Or.inl (Or.inl hx)
      · exact Or.inl (Or.inr hxo)
      · exact Or.inr ⟨o, ho, hxo⟩

theorem runPasses_not_attempted (u : Nat → Content → Nat) (s : Nat)
    (pes : List PassEnv) (st : St) (x : String) (hx : x ∈ st.ledger) :
    ∀ o ∈ (runPasses u s pes st).2, x ∉ o.attempted := by
  induction pes generalizing st with
  | nil => simp [runPasses]
  | cons pe rest ih =>
    simp only [runPasses, List.mem_cons]
    rintro o (rfl | ho)
    · exact passOutcome_not_attempted u s pe ⟨pe.disturb st.fs, st.ledger⟩ x hx
    · exact ih _ (passOutcome_ledger_mono u s pe ⟨pe.disturb st.fs, st.ledger⟩ x hx) o ho

theorem runPasses_append (u : Nat → Content → Nat) (s : Nat)
    (a b : List PassEnv) (st : St) :
    runPasses u s (a ++ b) st =
      ((runPasses u s b (runPasses u s a st).1).1,
        (runPasses u s a st).2 ++ (runPasses u s b (runPasses u s a st).1).2) := by
  induction a generalizing st with
  | nil => simp [runPasses]
  | cons pe rest ih =>
    simp only [List.cons_append, runPasses, List.append_eq]
    rw [ih]

/-- Claim C4: the readiness probe reads the size, waits a settle interval of
at least one second, reads the size again, and reports ready iff both reads
succeed and the sizes are equal; it is a total boolean function of the two
observations (any I/O failure yields not-ready rather than an exception). -/
theorem readiness_probe_spec :
    (∀ r1 r2 : Option Nat,
        is_file_ready r1 r2 = true ↔ ∃ m, r1 = some m ∧ r2 = some m)
    ∧ 1 ≤ settleSeconds := by
  constructor
  · intro r1 r2
    cases r1 with
    | none => simp [is_file_ready]
    | some a =>
      cases r2 with
      | none => simp [is_file_ready]
      | some b =>
        simp only [is_file_ready, beq_iff_eq, Option.some.injEq]
        constructor
        · intro h
          exact ⟨a, rfl, h.symm⟩
        · rintro ⟨m, rfl, rfl⟩
          rfl
  · decide

/-- Claim C5: the integrity verifier hashes both files by streaming their
content in fixed 4096-byte chunks (each chunk nonempty and at most 4096
bytes, and the chunks concatenate back to the content) through the digest,
reports equality of the final digests, and returns false whenever reading
either path fails. -/
theorem verifier_spec :
    (∀ (upd : Nat → Content → Nat) (seed : Nat) (a b : Option Content),
        verify_copy upd seed a b = true ↔
          ∃ x y, a = some x ∧ b = some y ∧
            calculate_file_hash upd seed x = calculate_file_hash upd seed y)
    ∧ (∀ c : Content, (chunksOf 4096 c).flatten = c)
    ∧ (∀ c ch : Content, ch ∈ chunksOf 4096 c → ch.length ≤ 4096 ∧ ch ≠ []) := by
  refine ⟨?_, chunksOf_join, ?_⟩
  · intro upd seed a b
    cases a with
    | none => simp [verify_copy]
    | some x =>
      cases b with
      | none => simp [verify_copy]
      | some y => simp [verify_copy]
  · intro c ch h
    exact chunksOfAux_mem 4096 (by omega) c.length c ch h

/-- Claim C1, amended: in the copy-verify-delete executor
(`safe_copy_and_delete`, mrc_mover_simple.py), every source-deleting event
in the trace is preceded by a successful verification event; on any failed
outcome the source directory (and hence the source file's bytes) is exactly
its pre-transfer value; and when verification fails under an otherwise
benign environment, the destination copy is deleted and the outcome is the
failure value.  The plain-move variant (`move_file`) is excluded: it
performs no verification at all (see the counterexample). -/
theorem transfer_delete_only_after_verify :
    (∀ (u : Nat → Content → Nat) (s : Nat) (e : Xfer) (fs : Fs) (n : String),
        (safe_copy_and_delete u s e fs n).1 = false →
          (safe_copy_and_delete u s e fs n).2.1.source = fs.source)
    ∧ (∀ (u : Nat → Content → Nat) (s : Nat) (e : Xfer) (fs : Fs) (n : String),
        delAfterVerify (safe_copy_and_delete u s e fs n).2.2 = true)
    ∧ (∀ (u : Nat → Content → Nat) (s : Nat) (e : Xfer) (fs : Fs) (n : String)
        (c : Content),
        lookupE fs.source n = some (Entry.file c) →
        is_file_ready e.size1 e.size2 = true →
        e.copyFails = false →
        (∀ sub, lookupE fs.dest n ≠ some (Entry.dir sub)) →
        e.corrupt = none →
        e.removeDstFails = false →
        verify_copy u s (readFile fs.source n e.readSrcFails)
            (readFile (copy2 e fs n c).dest n e.readDstFails) = false →
        (safe_copy_and_delete u s e fs n).1 = false ∧
          lookupE (safe_copy_and_delete u s e fs n).2.1.dest n = none ∧
          (safe_copy_and_delete u s e fs n).2.1.source = fs.source) :=
  ⟨scd_false_source, scd_trace_verified, scd_verify_fail_cleanup⟩

/-- Counterexample to C1 as stated over every transfer invocation of the
repository: `move_file` (file_mover.py lines 43-60, mrc_mover_gui.py lines
161-174) relocates a ready source file via `shutil.move`, deleting it from
the source directory, although its trace contains no successful
verification event before the source-deleting event. -/
theorem move_without_verification_cex :
    (move_file (goodEnv 3) ⟨[("a.mrc", Entry.file [1, 2, 3])], []⟩ "a.mrc").1 = true
    ∧ lookupE (move_file (goodEnv 3) ⟨[("a.mrc", Entry.file [1, 2, 3])], []⟩
        "a.mrc").2.1.source "a.mrc" = none
    ∧ delAfterVerify (move_file (goodEnv 3) ⟨[("a.mrc", Entry.file [1, 2, 3])], []⟩
        "a.mrc").2.2 = false := by
  decide

/-- Witness for C1: a concrete invocation where the destination read fails
during verification: the outcome is the failure value, the destination copy
is removed, and the source directory is untouched. -/
theorem transfer_delete_only_after_verify_witness :
    (safe_copy_and_delete digestSum 0
        ⟨some 2, some 2, false, none, false, true, false, false, false⟩
        ⟨[("a.mrc", Entry.file [1, 2])], []⟩ "a.mrc").1 = false ∧
    lookupE (safe_copy_and_delete digestSum 0
        ⟨some 2, some 2, false, none, false, true, false, false, false⟩
        ⟨[("a.mrc", Entry.file [1, 2])], []⟩ "a.mrc").2.1.dest "a.mrc" = none ∧
    (safe_copy_and_delete digestSum 0
        ⟨some 2, some 2, false, none, false, true, false, false, false⟩
        ⟨[("a.mrc", Entry.file [1, 2])], []⟩ "a.mrc").2.1.source =
      [("a.mrc", Entry.file [1, 2])] :=
  transfer_delete_only_after_verify.2.2 digestSum 0
    ⟨some 2, some 2, false, none, false, true, false, false, false⟩
    ⟨[("a.mrc", Entry.file [1, 2])], []⟩ "a.mrc" [1, 2]
    (by decide) (by decide) rfl (fun sub h => Option.noConfusion h) rfl rfl (by decide)

/-- Claim C2, amended: one orchestrator pass returns only the count of
files successfully processed (not an attempted count), and a
directory-listing failure is caught inside the pass and reported as the
count 0 with the state untouched — the same value a pass returns when it
finds zero candidates. -/
theorem scan_summary_behavior :
    (∀ (u : Nat → Content → Nat) (s : Nat) (env : String → Xfer) (st : St),
        scan_and_process u s env true st = (0, st))
    ∧ (∀ (u : Nat → Content → Nat) (s : Nat) (env : String → Xfer) (st : St),
        (scan_and_process u s env false st).1 =
          (scanPass u s env st).succeededN.length)
    ∧ (∀ (u : Nat → Content → Nat) (s : Nat) (env : String → Xfer) (st : St),
        (scan_and_process u s env false st).2 = (scanPass u s env st).st) := by
  refine ⟨fun u s env st => rfl, fun u s env st => ?_, fun u s env st => rfl⟩
  simpa [scan_and_process, scanPass] using
    processFiles_count u s env (listCandidates st.fs.source ".mrc") st

/-- Counterexample to C2: a pass whose directory listing fails — even over
a source holding a transferable candidate — returns the same value 0 as a
pass over an empty source, so the caller cannot tell the two apart; and on
a source with two candidates of which one succeeds, the executor was
invoked twice but the pass returns only 1: the summary does not carry the
attempted count. -/
theorem scan_summary_cex :
    (scan_and_process digestSum 0 (fun _ => goodEnv 1) true
      ⟨⟨[("a.mrc", Entry.file [1])], []⟩, []⟩).1 = 0
    ∧ (scan_and_process digestSum 0 (fun _ => goodEnv 1) false
      ⟨⟨[], []⟩, []⟩).1 = 0
    ∧ (scanPass digestSum 0
        (fun f => if f == "a.mrc" then goodEnv 1
          else ⟨some 1, some 2, false, none, false, false, false, false, false⟩)
        ⟨⟨[("a.mrc", Entry.file [1]), ("b.mrc", Entry.file [2])], []⟩, []⟩).attempted.length = 2
    ∧ (scan_and_process digestSum 0
        (fun f => if f == "a.mrc" then goodEnv 1
          else ⟨some 1, some 2, false, none, false, false, false, false, false⟩)
        false ⟨⟨[("a.mrc", Entry.file [1]), ("b.mrc", Entry.file [2])], []⟩, []⟩).1 = 1 := by
  decide

/-- Claim C3, amended: the executor's result is a single boolean, not a
four-variant tagged value: it is `true` exactly when the full
copy-verify-delete pipeline completed (the trace contains a successful
source delete), and every failure cause (not ready, copy error,
verification failure, delete error) collapses to `false`. -/
theorem outcome_boolean_iff :
    ∀ (u : Nat → Content → Nat) (s : Nat) (e : Xfer) (fs : Fs) (n : String),
      (safe_copy_and_delete u s e fs n).1 = true ↔
        Ev.removeSrc true ∈ (safe_copy_and_delete u s e fs n).2.2 :=
  scd_success_iff

/-- Counterexample to C3: three invocations failing for three different
reasons — the readiness probe reporting not ready, verification failing on
a corrupted copy, and the copy itself raising — all return the same value
`false`: the outcomes NotReady, VerificationFailed and IOError are not
distinguishable from the result. -/
theorem outcome_collapse_cex :
    (safe_copy_and_delete digestSum 0
      ⟨some 3, some 4, false, none, false, false, false, false, false⟩
      ⟨[("a.mrc", Entry.file [1, 2, 3])], []⟩ "a.mrc").1 = false
    ∧ Ev.probe false ∈ (safe_copy_and_delete digestSum 0
      ⟨some 3, some 4, false, none, false, false, false, false, false⟩
      ⟨[("a.mrc", Entry.file [1, 2, 3])], []⟩ "a.mrc").2.2
    ∧ (safe_copy_and_delete digestSum 0
      ⟨some 3, some 3, false, some [9], false, false, false, false, false⟩
      ⟨[("a.mrc", Entry.file [1, 2, 3])], []⟩ "a.mrc").1 = false
    ∧ Ev.verifyEv false ∈ (safe_copy_and_delete digestSum 0
      ⟨some 3, some 3, false, some [9], false, false, false, false, false⟩
      ⟨[("a.mrc", Entry.file [1, 2, 3])], []⟩ "a.mrc").2.2
    ∧ (safe_copy_and_delete digestSum 0
      ⟨some 3, some 3, true, none, false, false, false, false, false⟩
      ⟨[("a.mrc", Entry.file [1, 2, 3])], []⟩ "a.mrc").1 = false
    ∧ Ev.copyEv false ∈ (safe_copy_and_delete digestSum 0
      ⟨some 3, some 3, true, none, false, false, false, false, false⟩
      ⟨[("a.mrc", Entry.file [1, 2, 3])], []⟩ "a.mrc").2.2 := by
  decide

/-- Claim C6: across every operation of a run started with the empty ledger,
a basename is in the ledger iff some pass's transfer of that basename
reported success; the ledger only ever grows within a run; and recording a
name twice leaves the ledger as recording it once. -/
theorem ledger_success_invariant :
    (∀ (u : Nat → Content → Nat) (s : Nat) (pes : List PassEnv) (fs : Fs)
        (x : String),
        x ∈ (runPasses u s pes ⟨fs, []⟩).1.ledger ↔
          ∃ o ∈ (runPasses u s pes ⟨fs, []⟩).2, x ∈ o.succeededN)
    ∧ (∀ (u : Nat → Content → Nat) (s : Nat) (pes : List PassEnv) (st : St)
        (x : String), x ∈ st.ledger → x ∈ (runPasses u s pes st).1.ledger)
    ∧ (∀ (l : Ledger) (n : String), record (record l n) n = record l n) := by
  refine ⟨?_, runPasses_ledger_mono, record_idem⟩
  intro u s pes fs x
  rw [runPasses_ledger_iff]
  simp

/-- Witness for C6: a name present in the ledger is still present after a
run of zero passes. -/
theorem ledger_success_invariant_witness :
    "a.mrc" ∈ (runPasses digestSum 0 [] ⟨⟨[], []⟩, ["a.mrc"]⟩).1.ledger :=
  ledger_success_invariant.2.1 digestSum 0 [] ⟨⟨[], []⟩, ["a.mrc"]⟩ "a.mrc"
    (by decide)

/-- Claim C7: once a filename is in the ledger after a prefix of the run's
passes, no pass of the rest of the run invokes the executor for that name —
even though each later pass may find the name reintroduced in the source
directory by the disturbal environment.  The first conjunct identifies the
two runs with the passes of the single run `a ++ b`. -/
theorem no_retransfer_after_record (u : Nat → Content → Nat) (s : Nat)
    (a b : List PassEnv) (st : St) (x : String)
    (hx : x ∈ (runPasses u s a st).1.ledger) :
    (runPasses u s (a ++ b) st).2 =
      (runPasses u s a st).2 ++ (runPasses u s b (runPasses u s a st).1).2
    ∧ ((runPasses u s b (runPasses u s a st).1).2.all
        (fun o => decide (x ∉ o.attempted))) = true := by
  constructor
  · rw [runPasses_append]
  · rw [List.all_eq_true]
    intro o ho
    rw [decide_eq_true_eq]
    exact runPasses_not_attempted u s b _ x hx o ho

/-- Witness for C7: after a first pass transfers a.mrc, a second pass whose
disturbal environment reintroduces a file named a.mrc never attempts it. -/
theorem no_retransfer_after_record_witness :
    (runPasses digestSum 0
        ([⟨fun fs => fs, fun _ => goodEnv 1, false⟩] ++
          [⟨fun _ => ⟨[("a.mrc", Entry.file [5])], []⟩, fun _ => goodEnv 1, false⟩])
        ⟨⟨[("a.mrc", Entry.file [1])], []⟩, []⟩).2 =
      (runPasses digestSum 0 [⟨fun fs => fs, fun _ => goodEnv 1, false⟩]
          ⟨⟨[("a.mrc", Entry.file [1])], []⟩, []⟩).2 ++
        (runPasses digestSum 0
          [⟨fun _ => ⟨[("a.mrc", Entry.file [5])], []⟩, fun _ => goodEnv 1, false⟩]
          (runPasses digestSum 0 [⟨fun fs => fs, fun _ => goodEnv 1, false⟩]
            ⟨⟨[("a.mrc", Entry.file [1])], []⟩, []⟩).1).2
    ∧ ((runPasses digestSum 0
          [⟨fun _ => ⟨[("a.mrc", Entry.file [5])], []⟩, fun _ => goodEnv 1, false⟩]
          (runPasses digestSum 0 [⟨fun fs => fs, fun _ => goodEnv 1, false⟩]
            ⟨⟨[("a.mrc", Entry.file [1])], []⟩, []⟩).1).2.all
        (fun o => decide ("a.mrc" ∉ o.attempted))) = true :=
  no_retransfer_after_record digestSum 0
    [⟨fun fs => fs, fun _ => goodEnv 1, false⟩]
    [⟨fun _ => ⟨[("a.mrc", Entry.file [5])], []⟩, fun _ => goodEnv 1, false⟩]
    ⟨⟨[("a.mrc", Entry.file [1])], []⟩, []⟩ "a.mrc" (by decide)

/-- Claim C8, amended: the simple variant's scanner lists exactly the
top-level regular files of the source directory whose names end with the
extension; the glob variant (file_mover.py / mrc_mover_gui.py) instead
lists every top-level entry whose name ends with the extension, including
subdirectories. -/
theorem scanner_listing_spec :
    (∀ (src : DirList) (ext x : String),
        x ∈ listCandidates src ext ↔
          ∃ e, (x, e) ∈ src ∧ isFileE e = true ∧ endsWithExt x ext = true)
    ∧ (∀ (src : DirList) (ext x : String),
        x ∈ globCandidates src ext ↔
          ∃ e, (x, e) ∈ src ∧ endsWithExt x ext = true) := by
  constructor
  · intro src ext x
    simp only [listCandidates, List.mem_map, List.mem_filter, Bool.and_eq_true]
    constructor
    · rintro ⟨⟨y, e⟩, ⟨hmem, hext, hfile⟩, rfl⟩
      exact ⟨e, hmem, hfile, hext⟩
    · rintro ⟨e, hmem, hfile, hext⟩
      exact ⟨(x, e), ⟨hmem, hext, hfile⟩, rfl⟩
  · intro src ext x
    simp only [globCandidates, List.mem_map, List.mem_filter]
    constructor
    · rintro ⟨⟨y, e⟩, ⟨hmem, hext⟩, rfl⟩
      exact ⟨e, hmem, hext⟩
    · rintro ⟨e, hmem, hext⟩
      exact ⟨(x, e), ⟨hmem, hext⟩, rfl⟩

/-- Counterexample to C8 as stated over the repository's scanners: on a
source directory holding only a subdirectory named sub.mrc, the glob
scanner of file_mover.py / mrc_mover_gui.py lists it as a candidate even
though it is not a regular file, while the simple variant's scanner
correctly excludes it. -/
theorem glob_lists_directory_cex :
    globCandidates [("sub.mrc", Entry.dir [])] ".mrc" = ["sub.mrc"]
    ∧ isFileE (Entry.dir []) = false
    ∧ listCandidates [("sub.mrc", Entry.dir [])] ".mrc" = [] := by
  decide

/-- Claim C9: a destination-path collision with an existing regular file is
silently overwritten by both executors (the transfer succeeds and the
destination holds the new bytes), while for the copy-verify executor a
collision with a directory makes the transfer fail with the source left
untouched. -/
theorem collision_overwrite_spec :
    (∀ (u : Nat → Content → Nat) (s m : Nat) (fs : Fs) (n : String)
        (c old : Content),
        lookupE fs.source n = some (Entry.file c) →
        lookupE fs.dest n = some (Entry.file old) →
        (safe_copy_and_delete u s (goodEnv m) fs n).1 = true ∧
          lookupE (safe_copy_and_delete u s (goodEnv m) fs n).2.1.dest n =
            some (Entry.file c))
    ∧ (∀ (u : Nat → Content → Nat) (s m : Nat) (fs : Fs) (n : String)
        (sub : List (String × Content)),
        lookupE fs.dest n = some (Entry.dir sub) →
        (safe_copy_and_delete u s (goodEnv m) fs n).1 = false ∧
          (safe_copy_and_delete u s (goodEnv m) fs n).2.1.source = fs.source)
    ∧ (∀ (m : Nat) (fs : Fs) (n : String) (c old : Content),
        lookupE fs.source n = some (Entry.file c) →
        lookupE fs.dest n = some (Entry.file old) →
        (move_file (goodEnv m) fs n).1 = true ∧
          lookupE (move_file (goodEnv m) fs n).2.1.dest n = some (Entry.file c)) := by
  refine ⟨?_, ?_, ?_⟩
  · intro u s m fs n c old hsrc hdest
    have hdir : ∀ sub, lookupE fs.dest n ≠ some (Entry.dir sub) := by
      intro sub h
      rw [hdest] at h
      simp at h
    rw [scd_success u s m fs n c hsrc hdir]
    simp [lookupE_setE_self]
  · intro u s m fs n sub hdest
    exact scd_destdir u s m fs n sub hdest
  · intro m fs n c old hsrc hdest
    rw [move_overwrite m fs n c old hsrc hdest]
    simp [lookupE_setE_self]

/-- Witness for C9: overwriting a one-byte destination file a.mrc with the
source's bytes succeeds silently. -/
theorem collision_overwrite_spec_witness :
    (safe_copy_and_delete digestSum 0 (goodEnv 2)
        ⟨[("a.mrc", Entry.file [7])], [("a.mrc", Entry.file [1])]⟩ "a.mrc").1 = true
    ∧ lookupE (safe_copy_and_delete digestSum 0 (goodEnv 2)
        ⟨[("a.mrc", Entry.file [7])], [("a.mrc", Entry.file [1])]⟩
        "a.mrc").2.1.dest "a.mrc" = some (Entry.file [7]) :=
  collision_overwrite_spec.1 digestSum 0 2
    ⟨[("a.mrc", Entry.file [7])], [("a.mrc", Entry.file [1])]⟩ "a.mrc" [7] [1]
    (by decide) (by decide)

/-- Claim C10: when the post-verification delete of the source fails, the
pass reports the transfer as failed, the verified destination copy stays in
place (the file exists in both directories), the name is not recorded in
the ledger, and the next pass attempts the file again, re-copying it over
the existing destination copy and completing the move. -/
theorem post_verify_delete_failure_behavior (u : Nat → Content → Nat) (s m : Nat)
    (destL : DirList) (n : String) (c : Content)
    (hmrc : endsWithExt n ".mrc" = true)
    (hdir : ∀ sub, lookupE destL n ≠ some (Entry.dir sub)) :
    (scan_and_process u s (fun _ => badDelEnv m) false
        ⟨⟨[(n, Entry.file c)], destL⟩, []⟩) =
      (0, ⟨⟨[(n, Entry.file c)], setE destL n (Entry.file c)⟩, []⟩)
    ∧ (scanPass u s (fun _ => goodEnv m)
        ⟨⟨[(n, Entry.file c)], setE destL n (Entry.file c)⟩, []⟩).attempted = [n]
    ∧ (scanPass u s (fun _ => goodEnv m)
        ⟨⟨[(n, Entry.file c)], setE destL n (Entry.file c)⟩, []⟩).count = 1
    ∧ (scanPass u s (fun _ => goodEnv m)
        ⟨⟨[(n, Entry.file c)], setE destL n (Entry.file c)⟩, []⟩).st.ledger = [n]
    ∧ lookupE (scanPass u s (fun _ => goodEnv m)
        ⟨⟨[(n, Entry.file c)], setE destL n (Entry.file c)⟩, []⟩).st.fs.source n = none
    ∧ lookupE (scanPass u s (fun _ => goodEnv m)
        ⟨⟨[(n, Entry.file c)], setE destL n (Entry.file c)⟩, []⟩).st.fs.dest n =
      some (Entry.file c) := by
  have hsrc : lookupE [(n, Entry.file c)] n = some (Entry.file c) := by
    simp [lookupE]
  have hlist : listCandidates [(n, Entry.file c)] ".mrc" = [n] := by
    simp [listCandidates, hmrc, isFileE]
  have hb := scd_baddel u s m ⟨[(n, Entry.file c)], destL⟩ n c hsrc hdir
  have hdir2 : ∀ sub, lookupE (setE destL n (Entry.file c)) n ≠
      some (Entry.dir sub) := by
    intro sub h
    rw [lookupE_setE_self] at h
    simp at h
  have hg := scd_success u s m ⟨[(n, Entry.file c)], setE destL n (Entry.file c)⟩
    n c hsrc hdir2
  have hpass1 : scanPass u s (fun _ => badDelEnv m)
      ⟨⟨[(n, Entry.file c)], destL⟩, []⟩ =
      ⟨0, ⟨⟨[(n, Entry.file c)], setE destL n (Entry.file c)⟩, []⟩, [n], []⟩ := by
    simp only [scanPass, hlist, processFiles, List.not_mem_nil, if_false, hb]
    simp
  have hpass2 : scanPass u s (fun _ => goodEnv m)
      ⟨⟨[(n, Entry.file c)], setE destL n (Entry.file c)⟩, []⟩ =
      ⟨1, ⟨⟨eraseE [(n, Entry.file c)] n,
        setE (setE destL n (Entry.file c)) n (Entry.file c)⟩, [n]⟩, [n], [n]⟩ := by
    simp only [scanPass, hlist, processFiles, List.not_mem_nil, if_false, hg]
    simp [record]
  refine ⟨?_, ?_, ?_, ?_, ?_, ?_⟩
  · simp [scan_and_process, hpass1]
  · rw [hpass2]
  · rw [hpass2]
  · rw [hpass2]
  · rw [hpass2]
    exact lookupE_eraseE_self _ _
  · rw [hpass2]
    exact lookupE_setE_self _ _ _

/-- Witness for C10 at a concrete input: source holds a.mrc with bytes
[1, 2], the destination starts empty, and the source delete fails in the
first pass. -/
theorem post_verify_delete_failure_witness :
    (scan_and_process digestSum 0 (fun _ => badDelEnv 2) false
        ⟨⟨[("a.mrc", Entry.file [1, 2])], []⟩, []⟩) =
      (0, ⟨⟨[("a.mrc", Entry.file [1, 2])],
        setE [] "a.mrc" (Entry.file [1, 2])⟩, []⟩)
    ∧ (scanPass digestSum 0 (fun _ => goodEnv 2)
        ⟨⟨[("a.mrc", Entry.file [1, 2])],
          setE [] "a.mrc" (Entry.file [1, 2])⟩, []⟩).attempted = ["a.mrc"]
    ∧ (scanPass digestSum 0 (fun _ => goodEnv 2)
        ⟨⟨[("a.mrc", Entry.file [1, 2])],
          setE [] "a.mrc" (Entry.file [1, 2])⟩, []⟩).count = 1
    ∧ (scanPass digestSum 0 (fun _ => goodEnv 2)
        ⟨⟨[("a.mrc", Entry.file [1, 2])],
          setE [] "a.mrc" (Entry.file [1, 2])⟩, []⟩).st.ledger = ["a.mrc"]
    ∧ lookupE (scanPass digestSum 0 (fun _ => goodEnv 2)
        ⟨⟨[("a.mrc", Entry.file [1, 2])],
          setE [] "a.mrc" (Entry.file [1, 2])⟩, []⟩).st.fs.source "a.mrc" = none
    ∧ lookupE (scanPass digestSum 0 (fun _ => goodEnv 2)
        ⟨⟨[("a.mrc", Entry.file [1, 2])],
          setE [] "a.mrc" (Entry.file [1, 2])⟩, []⟩).st.fs.dest "a.mrc" =
      some (Entry.file [1, 2]) :=
  post_verify_delete_failure_behavior digestSum 0 2 [] "a.mrc" [1, 2]
    (by decide) (fun sub h => Option.noConfusion h)

/-- Witness for C4 at a concrete input: both size reads return 500. -/
theorem readiness_probe_spec_witness :
    is_file_ready (some 500) (some 500) = true :=
  (readiness_probe_spec.1 (some 500) (some 500)).2 ⟨500, rfl, rfl⟩

/-- Witness for C5 at a concrete input: a three-byte file forms one nonempty
chunk of at most 4096 bytes, and verification succeeds on two equal reads. -/
theorem verifier_spec_witness :
    ([1, 2, 3] : Content).length ≤ 4096 ∧ ([1, 2, 3] : Content) ≠ [] :=
  verifier_spec.2.2 [1, 2, 3] [1, 2, 3] (by decide)

end MrcMover
